import Mathlib

/-!
Shallow embedding of src/proekt/t16.py, a file-integrity checker.

The program has three core functions:
  * calculate_hash: streams a file in 64 KiB chunks through a hashlib
    digest object selected by a string tag and returns the hex digest;
  * create_checksum_file: walks a directory tree, hashes every file
    except those named like the output file, and writes a JSON manifest
    with metadata and a files mapping, returning True and printing the
    count of processed files;
  * verify_integrity: loads a persisted manifest, re-hashes every
    recorded file and classifies it as passed / failed / missing,
    printing a summary and returning True iff failed == 0 and
    missing == 0.

Modelling choices:
  * a path is its list of components (os.path.join appends components,
    os.path.relpath against the root drops the root's components);
  * byte content is a list of natural byte values;
  * the hashlib library is modelled by a parameter
    digest : String -> List Nat -> String mapping an algorithm tag and
    the full byte content fed to the accumulator to the final
    hexdigest string (hashlib's hexdigest is a pure function of the
    fed bytes, rendered as lowercase hex); the incremental hash_obj
    state is the concatenation of the chunks fed so far;
  * Python exceptions become an Except layer (PyError); printing is
    dropped; create_checksum_file's boolean result together with the
    written JSON document and the printed count becomes
    Option (Manifest × Nat); verify_integrity's observable outcome is
    Except PyError (VerificationResults × Bool): a structural error
    (manifest absent, invalid JSON, or of the wrong shape) returns
    False without any per-file report, which the Except.error branch
    records, while a run that reaches the summary yields the counters
    and the returned verdict;
  * the persisted manifest as seen by verify_integrity is a
    ManifestFile: absent (FileNotFoundError on open), invalidJson
    (json.JSONDecodeError), badStructure (the loaded JSON lacks
    metadata.algorithm, metadata.directory or files, or they have
    unusable shapes, so a KeyError/TypeError/AttributeError escapes to
    the outer handler before the per-file loop), or parsed
    (a RawManifest carrying whatever strings the file held, including
    unknown algorithm tags and entries without a hash field).
-/

namespace T16

/-- Byte content of a file, one natural number per byte. -/
abbrev ByteSeq := List Nat

/-- A filesystem path, as its list of components. -/
abbrev Path := List String

/-- State of one file on disk: whether opening/reading it succeeds, its
byte content, and the size and mtime that os.path.getsize/getmtime
report. -/
structure FileData where
  readable : Bool
  content : ByteSeq
  size : Nat
  modified : Int
deriving DecidableEq, Repr

/-- A snapshot of the filesystem: regular files with their data, and the
set of existing directories. -/
structure FileSystem where
  files : List (Path × FileData)
  dirs : List Path
deriving DecidableEq, Repr

/-- Real filesystems bind each path to at most one file. -/
def FileSystem.WF (fs : FileSystem) : Prop :=
  (fs.files.map (fun e => e.1)).Nodup

/-- Look up the file stored at a path (what open(file_path) reaches). -/
def FileSystem.lookupFile (fs : FileSystem) (p : Path) : Option FileData :=
  (fs.files.find? (fun e => e.1 == p)).map (fun e => e.2)

/-- os.path.exists: true for an existing file or directory. -/
def FileSystem.pathExists (fs : FileSystem) (p : Path) : Bool :=
  fs.files.any (fun e => e.1 == p) || fs.dirs.any (fun d => d == p)

/-- Python exceptions that the program distinguishes. otherError stands
for any further exception reaching a generic `except Exception` handler
(KeyError, TypeError, ...). -/
inductive PyError where
  | valueError
  | fileNotFoundError
  | ioError
  | jsonDecodeError
  | otherError
deriving DecidableEq, Repr

/-- The chunks successive file.read(block_size) calls return: the while
loop consumes block_size bytes at a time until read returns empty.
(With block_size = 0 the first read already returns empty and nothing
is fed; the source always passes 65536.) -/
def readChunks (blockSize : Nat) (content : ByteSeq) : List ByteSeq :=
  if h : blockSize = 0 ∨ content = [] then []
  else content.take blockSize :: readChunks blockSize (content.drop blockSize)
termination_by content.length
decreasing_by
  simp only [List.length_drop]
  have hb : blockSize ≠ 0 := fun hh => h (Or.inl hh)
  have hc : content ≠ [] := fun hh => h (Or.inr hh)
  exact Nat.sub_lt (List.length_pos.mpr hc) (Nat.pos_of_ne_zero hb)

/-- The bytes accumulated by the hash_obj.update loop: the state of an
incremental hashlib object is the concatenation of everything fed. -/
def feedChunks (chunks : List ByteSeq) : ByteSeq :=
  chunks.foldl (fun s c => s ++ c) []

/-- calculate_hash (t16.py lines 7-54): dispatch on the algorithm tag
first (any other tag raises ValueError before the file is touched),
then open the file — FileNotFoundError if absent, IOError (including
IsADirectoryError) if it is a directory or unreadable — read it in
64 KiB chunks feeding hash_obj, and return hash_obj.hexdigest(). -/
def calculate_hash (digest : String → ByteSeq → String) (fs : FileSystem)
    (file_path : Path) (algorithm : String) : Except PyError String :=
  if algorithm == "md5" || algorithm == "sha1" || algorithm == "sha256" then
    match fs.lookupFile file_path with
    | some fd =>
      if fd.readable then
        Except.ok (digest algorithm (feedChunks (readChunks 65536 fd.content)))
      else Except.error PyError.ioError
    | none =>
      if fs.dirs.any (fun d => d == file_path) then Except.error PyError.ioError
      else Except.error PyError.fileNotFoundError
  else Except.error PyError.valueError

/-- One entry of the manifest's files mapping. -/
structure FileRecord where
  hash : String
  size : Nat
  modified : Int
deriving DecidableEq, Repr

/-- The metadata block of the manifest. -/
structure ManifestMetadata where
  created_at : String
  algorithm : String
  directory : Path
deriving DecidableEq, Repr

/-- The checksums document create_checksum_file writes: metadata plus
the files mapping from relative path to FileRecord (in walk order). -/
structure Manifest where
  metadata : ManifestMetadata
  files : List (Path × FileRecord)
deriving DecidableEq, Repr

/-- dir is a proper ancestor of p (p lies strictly below dir). -/
def isUnder (dir p : Path) : Bool :=
  p.take dir.length == dir && decide (dir.length < p.length)

/-- os.walk over directory_path flattened to the files it yields: every
regular file strictly below the root, as (absolute path, data). -/
def walkFiles (fs : FileSystem) (dir : Path) : List (Path × FileData) :=
  fs.files.filter (fun e => isUnder dir e.1)

/-- The file_name component os.walk pairs with each file: the last path
component. -/
def basename (p : Path) : String := p.getLastD ""

/-- The body of create_checksum_file's per-file loop (t16.py lines
87-112), acting on the accumulator (entries so far, file_count): skip
the file when its name equals output_file; otherwise hash it, and on
success record {hash, size, modified} under the relative path and
increment file_count; any exception is caught and the file skipped. -/
def buildStep (digest : String → ByteSeq → String) (fs : FileSystem)
    (directory_path : Path) (output_file algorithm : String)
    (acc : List (Path × FileRecord) × Nat) (e : Path × FileData) :
    List (Path × FileRecord) × Nat :=
  if basename e.1 == output_file then acc
  else
    match calculate_hash digest fs e.1 algorithm with
    | Except.ok h =>
      (acc.1 ++ [(e.1.drop directory_path.length,
        { hash := h, size := e.2.size, modified := e.2.modified })], acc.2 + 1)
    | Except.error _ => acc

/-- create_checksum_file (t16.py lines 56-126): if the directory does
not exist, print and return False (none); otherwise walk it, process
every file with buildStep, dump the checksums document to output_file
and return True. The observable result is the written document together
with the printed count of processed files. -/
def create_checksum_file (digest : String → ByteSeq → String) (fs : FileSystem)
    (created_at : String) (directory_path : Path) (output_file : String)
    (algorithm : String) : Option (Manifest × Nat) :=
  if fs.pathExists directory_path then
    let r := (walkFiles fs directory_path).foldl
      (buildStep digest fs directory_path output_file algorithm) ([], 0)
    some ({ metadata :=
              { created_at := created_at
                algorithm := algorithm
                directory := directory_path }
            files := r.1 }, r.2)
  else none

/-- One value of the loaded files mapping as verify_integrity reads it:
only the hash field is ever accessed, and it may be absent (then
file_info['hash'] raises KeyError inside the per-file try). -/
structure RawFileInfo where
  hash? : Option String
deriving DecidableEq, Repr

/-- A loaded checksums document that has the shape verify_integrity's
field accesses require: metadata.algorithm (any string — unknown tags
included), metadata.directory, and a files mapping. -/
structure RawManifest where
  algorithm : String
  directory : Path
  files : List (Path × RawFileInfo)
deriving DecidableEq, Repr

/-- What opening and parsing the checksum file can yield. -/
inductive ManifestFile where
  | absent
  | invalidJson
  | badStructure
  | parsed (m : RawManifest)
deriving DecidableEq, Repr

/-- The verification_results dictionary. -/
structure VerificationResults where
  passed : Nat
  failed : Nat
  missing : Nat
  total : Nat
deriving DecidableEq, Repr

/-- The three per-entry outcomes of verification. -/
inductive Outcome where
  | matched
  | mismatched
  | missingFile
deriving DecidableEq, Repr

/-- The body of verify_integrity's per-file loop (t16.py lines 160-184):
join the target directory with the relative path; if the path does not
exist count it missing; otherwise re-hash — any exception in re-hashing
or in reading file_info['hash'] counts the entry failed — and compare
the fresh hash with the recorded one: equal counts passed, different
counts failed. -/
def verifyEntry (digest : String → ByteSeq → String) (fs : FileSystem)
    (algorithm : String) (dirp : Path) (res : VerificationResults)
    (e : Path × RawFileInfo) : VerificationResults :=
  let file_path := dirp ++ e.1
  if fs.pathExists file_path then
    match calculate_hash digest fs file_path algorithm with
    | Except.error _ => { res with failed := res.failed + 1 }
    | Except.ok current_hash =>
      match e.2.hash? with
      | none => { res with failed := res.failed + 1 }
      | some original_hash =>
        if current_hash == original_hash then
          { res with passed := res.passed + 1 }
        else { res with failed := res.failed + 1 }
  else { res with missing := res.missing + 1 }

/-- The outcome verify_integrity's loop assigns to one entry. -/
def classifyEntry (digest : String → ByteSeq → String) (fs : FileSystem)
    (algorithm : String) (dirp : Path) (e : Path × RawFileInfo) : Outcome :=
  let file_path := dirp ++ e.1
  if fs.pathExists file_path then
    match calculate_hash digest fs file_path algorithm with
    | Except.error _ => Outcome.mismatched
    | Except.ok current_hash =>
      match e.2.hash? with
      | none => Outcome.mismatched
      | some original_hash =>
        if current_hash == original_hash then Outcome.matched
        else Outcome.mismatched
  else Outcome.missingFile

/-- Each outcome increments exactly one of the three counters. -/
def applyOutcome (o : Outcome) (res : VerificationResults) : VerificationResults :=
  match o with
  | Outcome.matched => { res with passed := res.passed + 1 }
  | Outcome.mismatched => { res with failed := res.failed + 1 }
  | Outcome.missingFile => { res with missing := res.missing + 1 }

/-- verify_integrity (t16.py lines 128-209): opening or parsing failures
and shape errors return False before any per-file output (the error
branch); otherwise the target directory defaults to the recorded one,
total is fixed to the number of entries, every entry is classified by
verifyEntry, and the run returns True iff failed == 0 and missing == 0. -/
def verify_integrity (digest : String → ByteSeq → String) (fs : FileSystem)
    (mf : ManifestFile) (directory_path : Option Path) :
    Except PyError (VerificationResults × Bool) :=
  match mf with
  | ManifestFile.absent => Except.error PyError.fileNotFoundError
  | ManifestFile.invalidJson => Except.error PyError.jsonDecodeError
  | ManifestFile.badStructure => Except.error PyError.otherError
  | ManifestFile.parsed m =>
    let dirp := directory_path.getD m.directory
    let init : VerificationResults :=
      { passed := 0, failed := 0, missing := 0, total := m.files.length }
    let res := m.files.foldl (verifyEntry digest fs m.algorithm dirp) init
    Except.ok (res, res.failed == 0 && res.missing == 0)

/-- json.dump of a Manifest followed by json.load in verify_integrity:
the document round-trips to a RawManifest with the same algorithm,
directory and files, every entry carrying its hash field. -/
def Manifest.toRaw (m : Manifest) : RawManifest :=
  { algorithm := m.metadata.algorithm
    directory := m.metadata.directory
    files := m.files.map (fun e => (e.1, { hash? := some e.2.hash })) }

/-! Helper lemmas. -/

/-- Folding the chunk list into the accumulator restores the content:
the 64 KiB chunking is invisible to the final digest. -/
theorem readChunks_foldl (blockSize : Nat) (hbs : blockSize ≠ 0) :
    ∀ (n : Nat) (c : ByteSeq), c.length ≤ n → ∀ acc : ByteSeq,
      (readChunks blockSize c).foldl (fun s k => s ++ k) acc = acc ++ c := by
  intro n
  induction n with
  | zero =>
    intro c hc acc
    have hnil : c = [] := by
      cases c with
      | nil => rfl
      | cons a t => simp at hc
    subst hnil
    rw [readChunks]
    simp
  | succ k ih =>
    intro c hc acc
    rw [readChunks]
    by_cases hcnil : c = []
    · simp [hcnil]
    · have hcond : ¬ (blockSize = 0 ∨ c = []) := by
        intro hor
        cases hor with
        | inl h0 => exact hbs h0
        | inr h1 => exact hcnil h1
      rw [dif_neg hcond]
      simp only [List.foldl_cons]
      have hlen : (c.drop blockSize).length ≤ k := by
        rw [List.length_drop]
        have hpos : 0 < blockSize := Nat.pos_of_ne_zero hbs
        omega
      rw [ih (c.drop blockSize) hlen (acc ++ c.take blockSize)]
      rw [List.append_assoc, List.take_append_drop]

theorem feedChunks_readChunks (c : ByteSeq) :
    feedChunks (readChunks 65536 c) = c := by
  have h := readChunks_foldl 65536 (by omega) c.length c (Nat.le_refl _) []
  simpa [feedChunks] using h

/-- On a readable file with a supported algorithm, calculate_hash is the
digest of the full content. -/
theorem calculate_hash_readable (digest : String → ByteSeq → String)
    (fs : FileSystem) (p : Path) (alg : String) (fd : FileData)
    (halg : alg = "md5" ∨ alg = "sha1" ∨ alg = "sha256")
    (hfind : fs.lookupFile p = some fd) (hread : fd.readable = true) :
    calculate_hash digest fs p alg = Except.ok (digest alg fd.content) := by
  have htag : (alg == "md5" || alg == "sha1" || alg == "sha256") = true := by
    rcases halg with h | h | h <;> simp [h]
  simp [calculate_hash, htag, hfind, hread, feedChunks_readChunks]

/-- A successful hash means the path is a real file, hence exists. -/
theorem calculate_hash_ok_pathExists (digest : String → ByteSeq → String)
    (fs : FileSystem) (p : Path) (alg : String) (h : String)
    (hok : calculate_hash digest fs p alg = Except.ok h) :
    fs.pathExists p = true := by
  unfold calculate_hash at hok
  by_cases htag : (alg == "md5" || alg == "sha1" || alg == "sha256") = true
  · rw [if_pos htag] at hok
    cases hfind : fs.lookupFile p with
    | none =>
      rw [hfind] at hok
      by_cases hd : fs.dirs.any (fun d => d == p) = true
      · simp [hd] at hok
      · simp [hd] at hok
    | some fd =>
      unfold FileSystem.lookupFile at hfind
      cases he : fs.files.find? (fun e => e.1 == p) with
      | none => rw [he] at hfind; simp at hfind
      | some e =>
        have hmem := List.mem_of_find?_eq_some he
        have hpe := List.find?_some he
        unfold FileSystem.pathExists
        have : fs.files.any (fun e => e.1 == p) = true :=
          List.any_eq_true.mpr ⟨e, hmem, hpe⟩
        simp [this]
  · rw [if_neg htag] at hok
    simp at hok

/-- The per-file loop body computes exactly the outcome classification:
every entry gets exactly one of the three outcomes, and each outcome
increments exactly one counter. -/
theorem verifyEntry_eq_applyOutcome (digest : String → ByteSeq → String)
    (fs : FileSystem) (alg : String) (dirp : Path)
    (res : VerificationResults) (e : Path × RawFileInfo) :
    verifyEntry digest fs alg dirp res e =
      applyOutcome (classifyEntry digest fs alg dirp e) res := by
  unfold verifyEntry classifyEntry applyOutcome
  by_cases hex : fs.pathExists (dirp ++ e.1) = true
  · simp only [hex, if_true]
    cases calculate_hash digest fs (dirp ++ e.1) alg with
    | error err => rfl
    | ok current =>
      cases e.2.hash? with
      | none => rfl
      | some original =>
        by_cases heq : (current == original) = true
        · simp [heq]
        · simp [heq]
  · simp [hex]

/-- Each loop step adds one to the sum of the three counters and leaves
total untouched. -/
theorem verifyEntry_counts (digest : String → ByteSeq → String)
    (fs : FileSystem) (alg : String) (dirp : Path)
    (res : VerificationResults) (e : Path × RawFileInfo) :
    (verifyEntry digest fs alg dirp res e).passed
        + (verifyEntry digest fs alg dirp res e).failed
        + (verifyEntry digest fs alg dirp res e).missing
      = res.passed + res.failed + res.missing + 1
    ∧ (verifyEntry digest fs alg dirp res e).total = res.total := by
  rw [verifyEntry_eq_applyOutcome]
  cases classifyEntry digest fs alg dirp e <;> simp [applyOutcome] <;> omega

/-- Folding the loop over a list of entries adds the list's length to
the counter sum and preserves total. -/
theorem verify_foldl_counts (digest : String → ByteSeq → String)
    (fs : FileSystem) (alg : String) (dirp : Path) :
    ∀ (l : List (Path × RawFileInfo)) (init : VerificationResults),
      (l.foldl (verifyEntry digest fs alg dirp) init).passed
          + (l.foldl (verifyEntry digest fs alg dirp) init).failed
          + (l.foldl (verifyEntry digest fs alg dirp) init).missing
        = init.passed + init.failed + init.missing + l.length
      ∧ (l.foldl (verifyEntry digest fs alg dirp) init).total = init.total := by
  intro l
  induction l with
  | nil => intro init; simp
  | cons e t ih =>
    intro init
    simp only [List.foldl_cons, List.length_cons]
    have hstep := verifyEntry_counts digest fs alg dirp init e
    have hrest := ih (verifyEntry digest fs alg dirp init e)
    exact ⟨by omega, by rw [hrest.2, hstep.2]⟩

/-- The default of getLastD is irrelevant on a nonempty list. -/
theorem getLastD_of_ne_nil {α : Type} (l : List α) (h : l ≠ []) (d1 d2 : α) :
    l.getLastD d1 = l.getLastD d2 := by
  cases l with
  | nil => exact absurd rfl h
  | cons b u => rw [List.getLastD_cons, List.getLastD_cons]

/-- Dropping fewer components than the path has keeps its last
component: the relative path has the same basename as the absolute
one. -/
theorem basename_drop (p : Path) (n : Nat) (h : n < p.length) :
    basename (p.drop n) = basename p := by
  induction p generalizing n with
  | nil => simp at h
  | cons a t ih =>
    cases n with
    | zero => rfl
    | succ k =>
      have hk : k < t.length := by simpa using h
      have htne : t ≠ [] := by
        intro hnil
        rw [hnil] at hk
        simp at hk
      show basename (t.drop k) = basename (a :: t)
      rw [ih k hk]
      unfold basename
      rw [List.getLastD_cons]
      exact getLastD_of_ne_nil t htne "" a

/-- Unpack the isUnder test. -/
theorem isUnder_spec (dir p : Path) (h : isUnder dir p = true) :
    p.take dir.length = dir ∧ dir.length < p.length := by
  unfold isUnder at h
  rw [Bool.and_eq_true] at h
  exact ⟨by simpa using h.1, by simpa using h.2⟩

/-- A file below the root is the root followed by its relative path. -/
theorem append_drop_of_isUnder (dir p : Path) (h : isUnder dir p = true) :
    dir ++ p.drop dir.length = p := by
  obtain ⟨htake, _⟩ := isUnder_spec dir p h
  calc dir ++ p.drop dir.length
      = p.take dir.length ++ p.drop dir.length := by rw [htake]
    _ = p := List.take_append_drop _ _

/-- The build loop keeps file_count equal to the number of recorded
entries. -/
theorem buildStep_foldl_count (digest : String → ByteSeq → String)
    (fs : FileSystem) (dirp : Path) (out alg : String) :
    ∀ (l : List (Path × FileData)) (acc : List (Path × FileRecord) × Nat),
      acc.2 = acc.1.length →
      (l.foldl (buildStep digest fs dirp out alg) acc).2
        = (l.foldl (buildStep digest fs dirp out alg) acc).1.length := by
  intro l
  induction l with
  | nil => intro acc h; simpa using h
  | cons x t ih =>
    intro acc h
    simp only [List.foldl_cons]
    apply ih
    unfold buildStep
    by_cases hskip : (basename x.1 == out) = true
    · rw [if_pos hskip]; exact h
    · rw [if_neg hskip]
      cases calculate_hash digest fs x.1 alg with
      | ok hsh => simp [h]
      | error err => exact h

/-- Every entry the build loop records has a nonempty relative path
whose basename passed the output-file filter. -/
theorem buildStep_foldl_basename (digest : String → ByteSeq → String)
    (fs : FileSystem) (dirp : Path) (out alg : String) :
    ∀ (l : List (Path × FileData)) (acc : List (Path × FileRecord) × Nat),
      (∀ x ∈ l, isUnder dirp x.1 = true) →
      (∀ e ∈ acc.1, basename e.1 ≠ out) →
      ∀ e ∈ (l.foldl (buildStep digest fs dirp out alg) acc).1,
        basename e.1 ≠ out := by
  intro l
  induction l with
  | nil => intro acc _ hacc; exact hacc
  | cons x t ih =>
    intro acc hl hacc
    simp only [List.foldl_cons]
    apply ih
    · intro y hy; exact hl y (List.mem_cons_of_mem x hy)
    · intro e he
      unfold buildStep at he
      by_cases hskip : (basename x.1 == out) = true
      · rw [if_pos hskip] at he; exact hacc e he
      · rw [if_neg hskip] at he
        cases hh : calculate_hash digest fs x.1 alg with
        | error err => rw [hh] at he; exact hacc e he
        | ok hsh =>
          rw [hh] at he
          simp only [List.mem_append, List.mem_singleton] at he
          cases he with
          | inl hold => exact hacc e hold
          | inr hnew =>
            subst hnew
            have hx := hl x (List.mem_cons_self x t)
            obtain ⟨_, hlt⟩ := isUnder_spec dirp x.1 hx
            simp only
            rw [basename_drop x.1 dirp.length hlt]
            simpa using hskip

/-- Every entry the build loop records carries exactly the hash that
calculate_hash returns for its absolute path. -/
theorem buildStep_foldl_hash (digest : String → ByteSeq → String)
    (fs : FileSystem) (dirp : Path) (out alg : String) :
    ∀ (l : List (Path × FileData)) (acc : List (Path × FileRecord) × Nat),
      (∀ x ∈ l, isUnder dirp x.1 = true) →
      (∀ e ∈ acc.1, calculate_hash digest fs (dirp ++ e.1) alg = Except.ok e.2.hash) →
      ∀ e ∈ (l.foldl (buildStep digest fs dirp out alg) acc).1,
        calculate_hash digest fs (dirp ++ e.1) alg = Except.ok e.2.hash := by
  intro l
  induction l with
  | nil => intro acc _ hacc; exact hacc
  | cons x t ih =>
    intro acc hl hacc
    simp only [List.foldl_cons]
    apply ih
    · intro y hy; exact hl y (List.mem_cons_of_mem x hy)
    · intro e he
      unfold buildStep at he
      by_cases hskip : (basename x.1 == out) = true
      · rw [if_pos hskip] at he; exact hacc e he
      · rw [if_neg hskip] at he
        cases hh : calculate_hash digest fs x.1 alg with
        | error err => rw [hh] at he; exact hacc e he
        | ok hsh =>
          rw [hh] at he
          simp only [List.mem_append, List.mem_singleton] at he
          cases he with
          | inl hold => exact hacc e hold
          | inr hnew =>
            subst hnew
            have hx := hl x (List.mem_cons_self x t)
            simp only
            rw [append_drop_of_isUnder dirp x.1 hx]
            exact hh

/-! Concrete fixtures used by witnesses. -/

/-- A trivial stand-in for hashlib's hexdigest in concrete runs. -/
def hashW : String → ByteSeq → String := fun _ _ => "h"

/-- A filesystem with one readable file d/a. -/
def fsW : FileSystem :=
  { files := [([ "d", "a" ],
      { readable := true, content := [7, 7], size := 2, modified := 0 })]
    dirs := [[ "d" ]] }

/-- The manifest a build over fsW with output checksums.json and tag
sha256 produces under hashW. -/
def mW : Manifest :=
  { metadata := { created_at := "t", algorithm := "sha256", directory := [ "d" ] }
    files := [([ "a" ], { hash := "h", size := 2, modified := 0 })] }

/-- A filesystem with one existing but unreadable file d/a. -/
def fsU : FileSystem :=
  { files := [([ "d", "a" ],
      { readable := false, content := [], size := 0, modified := 0 })]
    dirs := [[ "d" ]] }

/-! Claim theorems. -/

/-- C8: for every readable file with byte content C and every supported
algorithm tag (md5, sha1, sha256), calculate_hash returns exactly the
library digest of C under that tag — the lowercase hex digest of the
full content, a pure function of content and algorithm, independent of
the 64 KiB chunked reading. -/
theorem calculate_hash_is_content_digest (digest : String → ByteSeq → String)
    (fs : FileSystem) (p : Path) (alg : String) (fd : FileData)
    (halg : alg = "md5" ∨ alg = "sha1" ∨ alg = "sha256")
    (hfind : fs.lookupFile p = some fd) (hread : fd.readable = true) :
    calculate_hash digest fs p alg = Except.ok (digest alg fd.content) :=
  calculate_hash_readable digest fs p alg fd halg hfind hread

/-- Witness for C8 on a concrete one-file filesystem. -/
theorem calculate_hash_is_content_digest_witness :
    calculate_hash (fun a c => a ++ String.mk (c.map (fun b => Char.ofNat (97 + b % 26))))
        { files := [([ "d", "a" ], { readable := true, content := [7, 7], size := 2, modified := 0 })],
          dirs := [[ "d" ]] }
        [ "d", "a" ] "sha256"
      = Except.ok ("sha256" ++ String.mk [Char.ofNat 104, Char.ofNat 104]) := by
  have h := calculate_hash_is_content_digest
    (fun a c => a ++ String.mk (c.map (fun b => Char.ofNat (97 + b % 26))))
    { files := [([ "d", "a" ], { readable := true, content := [7, 7], size := 2, modified := 0 })],
      dirs := [[ "d" ]] }
    [ "d", "a" ] "sha256"
    { readable := true, content := [7, 7], size := 2, modified := 0 }
    (Or.inr (Or.inr rfl)) (by decide) rfl
  simpa using h

/-- C9: calculate_hash validates the algorithm tag before touching the
filesystem: for every filesystem (including one where the path does not
exist) and every tag outside md5/sha1/sha256, it returns the
unsupported-algorithm error ValueError, never FileNotFoundError. -/
theorem calculate_hash_unknown_algorithm (digest : String → ByteSeq → String)
    (fs : FileSystem) (p : Path) (alg : String)
    (halg : ¬ (alg = "md5" ∨ alg = "sha1" ∨ alg = "sha256")) :
    calculate_hash digest fs p alg = Except.error PyError.valueError := by
  have htag : (alg == "md5" || alg == "sha1" || alg == "sha256") = false := by
    rcases h5 : alg == "md5" with _ | _
    · rcases h1 : alg == "sha1" with _ | _
      · rcases h2 : alg == "sha256" with _ | _
        · simp
        · exact absurd (Or.inr (Or.inr (by simpa using h2))) halg
      · exact absurd (Or.inr (Or.inl (by simpa using h1))) halg
    · exact absurd (Or.inl (by simpa using h5)) halg
  simp [calculate_hash, htag]

/-- Witness for C9: the tag sha512 on an empty filesystem and a
nonexistent path yields ValueError. -/
theorem calculate_hash_unknown_algorithm_witness :
    calculate_hash (fun _ _ => "h") { files := [], dirs := [] } [ "nope" ] "sha512"
      = Except.error PyError.valueError :=
  calculate_hash_unknown_algorithm (fun _ _ => "h") { files := [], dirs := [] }
    [ "nope" ] "sha512" (by decide)

/-- C2: every verification run that reaches the summary returns True
(verdict Intact) iff failed == 0 and missing == 0, and otherwise
returns False (Compromised). -/
theorem verify_verdict_iff (digest : String → ByteSeq → String)
    (fs : FileSystem) (m : RawManifest) (d : Option Path)
    (res : VerificationResults) (b : Bool)
    (h : verify_integrity digest fs (ManifestFile.parsed m) d = Except.ok (res, b)) :
    b = true ↔ (res.failed = 0 ∧ res.missing = 0) := by
  simp only [verify_integrity, Except.ok.injEq, Prod.mk.injEq] at h
  obtain ⟨hres, hb⟩ := h
  subst hres
  subst hb
  simp [Bool.and_eq_true, beq_iff_eq]

/-- Witness for C2 on a one-entry run that fails. -/
theorem verify_verdict_iff_witness :
    (false = true ↔
      (({ passed := 0, failed := 1, missing := 0, total := 1 } : VerificationResults).failed = 0
        ∧ ({ passed := 0, failed := 1, missing := 0, total := 1 } : VerificationResults).missing = 0)) :=
  verify_verdict_iff hashW fsW
    { algorithm := "sha256", directory := [ "d" ], files := [([ "a" ], { hash? := some "x" })] }
    none { passed := 0, failed := 1, missing := 0, total := 1 } false rfl

/-- C3: every manifest entry is classified into exactly one of the three
outcomes and increments exactly one counter, total is the number of
entries regardless of outcomes, and passed + failed + missing = total
at the end of every run that reaches the summary. -/
theorem verify_partition_counts (digest : String → ByteSeq → String)
    (fs : FileSystem) (m : RawManifest) (d : Option Path)
    (res : VerificationResults) (b : Bool)
    (h : verify_integrity digest fs (ManifestFile.parsed m) d = Except.ok (res, b)) :
    (∀ (r : VerificationResults) (e : Path × RawFileInfo),
        verifyEntry digest fs m.algorithm (d.getD m.directory) r e
          = applyOutcome (classifyEntry digest fs m.algorithm (d.getD m.directory) e) r)
    ∧ res.passed + res.failed + res.missing = res.total
    ∧ res.total = m.files.length := by
  simp only [verify_integrity, Except.ok.injEq, Prod.mk.injEq] at h
  obtain ⟨hres, hb⟩ := h
  have hc := verify_foldl_counts digest fs m.algorithm (d.getD m.directory) m.files
    { passed := 0, failed := 0, missing := 0, total := m.files.length }
  refine ⟨fun r e => verifyEntry_eq_applyOutcome digest fs m.algorithm (d.getD m.directory) r e, ?_, ?_⟩
  · rw [← hres]
    rw [hc.1, hc.2]
    simp
  · rw [← hres, hc.2]

/-- Witness for C3 on a one-entry run. -/
theorem verify_partition_counts_witness :
    (verifyEntry hashW fsW "sha256" [ "d" ]
        { passed := 0, failed := 0, missing := 0, total := 0 } ([ "a" ], { hash? := some "x" })
      = applyOutcome
          (classifyEntry hashW fsW "sha256" [ "d" ] ([ "a" ], { hash? := some "x" }))
          { passed := 0, failed := 0, missing := 0, total := 0 })
    ∧ ({ passed := 0, failed := 1, missing := 0, total := 1 } : VerificationResults).passed
        + ({ passed := 0, failed := 1, missing := 0, total := 1 } : VerificationResults).failed
        + ({ passed := 0, failed := 1, missing := 0, total := 1 } : VerificationResults).missing
      = ({ passed := 0, failed := 1, missing := 0, total := 1 } : VerificationResults).total := by
  have h := verify_partition_counts hashW fsW
    { algorithm := "sha256", directory := [ "d" ], files := [([ "a" ], { hash? := some "x" })] }
    none { passed := 0, failed := 1, missing := 0, total := 1 } false rfl
  exact ⟨h.1 { passed := 0, failed := 0, missing := 0, total := 0 } ([ "a" ], { hash? := some "x" }), h.2.1⟩

/-- C4: if re-hashing an existing file fails for any reason, the entry
is counted failed (other counters and total untouched), and
verify_integrity on a parsed manifest always reaches the summary — no
error propagates out and no run aborts. -/
theorem verify_hash_failure_isolated (digest : String → ByteSeq → String)
    (fs : FileSystem) (alg : String) (dirp : Path) (res : VerificationResults)
    (rel : Path) (info : RawFileInfo) (err : PyError)
    (hex : fs.pathExists (dirp ++ rel) = true)
    (hfail : calculate_hash digest fs (dirp ++ rel) alg = Except.error err) :
    verifyEntry digest fs alg dirp res (rel, info)
        = { res with failed := res.failed + 1 }
    ∧ ∀ (m : RawManifest) (d : Option Path), ∃ r b,
        verify_integrity digest fs (ManifestFile.parsed m) d = Except.ok (r, b) := by
  constructor
  · unfold verifyEntry
    simp [hex, hfail]
  · intro m d
    exact ⟨_, _, rfl⟩

/-- Witness for C4: an existing but unreadable file is counted failed,
and a concrete parsed run produces a summary. -/
theorem verify_hash_failure_isolated_witness :
    (verifyEntry hashW fsU "sha256" [ "d" ]
        { passed := 0, failed := 0, missing := 0, total := 1 } ([ "a" ], { hash? := some "x" })
      = { passed := 0, failed := 1, missing := 0, total := 1 })
    ∧ ∃ r b, verify_integrity hashW fsU
        (ManifestFile.parsed
          { algorithm := "sha256", directory := [ "d" ], files := [([ "a" ], { hash? := some "x" })] })
        none = Except.ok (r, b) := by
  have h := verify_hash_failure_isolated hashW fsU "sha256" [ "d" ]
    { passed := 0, failed := 0, missing := 0, total := 1 } [ "a" ] { hash? := some "x" }
    PyError.ioError rfl rfl
  exact ⟨h.1, h.2
    { algorithm := "sha256", directory := [ "d" ], files := [([ "a" ], { hash? := some "x" })] } none⟩

/-- C5 counterexample: a persisted manifest whose metadata carries the
unknown algorithm tag sha512 is NOT rejected structurally: verification
runs to completion and produces a full per-file report (the existing
entry is counted failed), instead of failing immediately with a
ManifestCorrupt error and no report. -/
theorem verify_unknown_tag_reports :
    verify_integrity hashW fsW
        (ManifestFile.parsed
          { algorithm := "sha512", directory := [ "d" ], files := [([ "a" ], { hash? := some "x" })] })
        none
      = Except.ok ({ passed := 0, failed := 1, missing := 0, total := 1 }, false) := rfl

/-- C5 amended: verification aborts with a structural error and no
per-file report exactly when the persisted manifest is absent, is not
valid JSON, or lacks the required fields/shape; a manifest that parses
— even with an unknown algorithm tag — always yields a full report. -/
theorem verify_structural_error_iff (digest : String → ByteSeq → String)
    (fs : FileSystem) (mf : ManifestFile) (d : Option Path) :
    (∃ err, verify_integrity digest fs mf d = Except.error err)
      ↔ (mf = ManifestFile.absent ∨ mf = ManifestFile.invalidJson
          ∨ mf = ManifestFile.badStructure) := by
  cases mf with
  | absent => simp [verify_integrity]
  | invalidJson => simp [verify_integrity]
  | badStructure => simp [verify_integrity]
  | parsed m => simp [verify_integrity]

/-- C6: for every existing root directory, create_checksum_file
succeeds and its observable result is the assembled manifest (with the
requested metadata) together with the count of successfully processed
files — exactly the number of entries recorded in the manifest. -/
theorem create_returns_manifest_and_count (digest : String → ByteSeq → String)
    (fs : FileSystem) (created_at : String) (dirp : Path) (out alg : String)
    (hex : fs.pathExists dirp = true) :
    ∃ m : Manifest,
      create_checksum_file digest fs created_at dirp out alg = some (m, m.files.length)
      ∧ m.metadata = { created_at := created_at, algorithm := alg, directory := dirp } := by
  unfold create_checksum_file
  rw [if_pos hex]
  refine ⟨{ metadata := { created_at := created_at, algorithm := alg, directory := dirp }
            files := ((walkFiles fs dirp).foldl (buildStep digest fs dirp out alg) ([], 0)).1 },
          ?_, rfl⟩
  have hcount := buildStep_foldl_count digest fs dirp out alg (walkFiles fs dirp) ([], 0) rfl
  rw [← hcount]

/-- Witness for C6 on a one-file directory. -/
theorem create_returns_manifest_and_count_witness :
    ∃ m : Manifest,
      create_checksum_file hashW fsW "t" [ "d" ] "checksums.json" "sha256"
          = some (m, m.files.length)
      ∧ m.metadata = { created_at := "t", algorithm := "sha256", directory := [ "d" ] } :=
  create_returns_manifest_and_count hashW fsW "t" [ "d" ] "checksums.json" "sha256" rfl

/-- C7: for every tree and output filename, the build skips every file
whose name equals the output filename at any depth, so no entry of the
produced manifest has the output file's name — in particular a manifest
file already present inside the scanned directory from a previous build
is never recorded. -/
theorem create_excludes_output_file (digest : String → ByteSeq → String)
    (fs : FileSystem) (created_at : String) (dirp : Path) (out alg : String)
    (m : Manifest) (count : Nat)
    (hbuild : create_checksum_file digest fs created_at dirp out alg = some (m, count)) :
    ∀ e ∈ m.files, basename e.1 ≠ out := by
  unfold create_checksum_file at hbuild
  by_cases hex : fs.pathExists dirp = true
  · rw [if_pos hex] at hbuild
    simp only [Option.some.injEq, Prod.mk.injEq] at hbuild
    obtain ⟨hm, _⟩ := hbuild
    have hwalk : ∀ x ∈ walkFiles fs dirp, isUnder dirp x.1 = true := by
      intro x hx
      unfold walkFiles at hx
      have h2 := (List.mem_filter.mp hx).2
      simpa using h2
    have hinv := buildStep_foldl_basename digest fs dirp out alg
      (walkFiles fs dirp) ([], 0) hwalk (by intro e he; simp at he)
    intro e he
    apply hinv
    rw [← hm] at he
    exact he
  · rw [if_neg hex] at hbuild
    simp at hbuild

/-- Witness for C7: the entry recorded for d/a in a concrete build is
not named like the output file. -/
theorem create_excludes_output_file_witness :
    basename [ "a" ] ≠ "checksums.json" := by
  have hb : create_checksum_file hashW fsW "t" [ "d" ] "checksums.json" "sha256"
      = some (mW, 1) := rfl
  exact create_excludes_output_file hashW fsW "t" [ "d" ] "checksums.json" "sha256"
    mW 1 hb ([ "a" ], { hash := "h", size := 2, modified := 0 }) (by simp [mW])

/-- C10: an existing directory in which every walked file is either
named like the output file or fails hashing still builds successfully:
the manifest has the full metadata and an empty files mapping, and the
processed-file count is zero. -/
theorem create_no_hashable_files (digest : String → ByteSeq → String)
    (fs : FileSystem) (created_at : String) (dirp : Path) (out alg : String)
    (hex : fs.pathExists dirp = true)
    (hall : ∀ e ∈ walkFiles fs dirp, basename e.1 = out
        ∨ ∃ err, calculate_hash digest fs e.1 alg = Except.error err) :
    create_checksum_file digest fs created_at dirp out alg
      = some ({ metadata := { created_at := created_at, algorithm := alg, directory := dirp }
                files := [] }, 0) := by
  unfold create_checksum_file
  rw [if_pos hex]
  have hfold : ∀ (l : List (Path × FileData)),
      (∀ e ∈ l, basename e.1 = out
        ∨ ∃ err, calculate_hash digest fs e.1 alg = Except.error err) →
      l.foldl (buildStep digest fs dirp out alg) ([], 0) = ([], 0) := by
    intro l
    induction l with
    | nil => intro _; rfl
    | cons x t ih =>
      intro hlx
      simp only [List.foldl_cons]
      have hstep : buildStep digest fs dirp out alg ([], 0) x = ([], 0) := by
        unfold buildStep
        cases hlx x (List.mem_cons_self x t) with
        | inl hname => simp [hname]
        | inr herr =>
          obtain ⟨err, herr⟩ := herr
          by_cases hskip : (basename x.1 == out) = true
          · rw [if_pos hskip]
          · rw [if_neg hskip, herr]
      rw [hstep]
      exact ih (fun e he => hlx e (List.mem_cons_of_mem x he))
  rw [hfold (walkFiles fs dirp) hall]

/-- Witness for C10: a directory whose only file is unreadable yields an
empty manifest and count zero. -/
theorem create_no_hashable_files_witness :
    create_checksum_file hashW fsU "t" [ "d" ] "checksums.json" "sha256"
      = some ({ metadata := { created_at := "t", algorithm := "sha256", directory := [ "d" ] }
                files := [] }, 0) :=
  create_no_hashable_files hashW fsU "t" [ "d" ] "checksums.json" "sha256" rfl
    (by
      intro e he
      have he' : e = ([ "d", "a" ],
          { readable := false, content := [], size := 0, modified := 0 }) := by
        simpa [walkFiles, fsU, isUnder] using he
      subst he'
      exact Or.inr ⟨PyError.ioError, rfl⟩)

/-- When every entry's file re-hashes to exactly the recorded hash, the
verification loop counts every entry as passed. -/
theorem verify_foldl_all_pass (digest : String → ByteSeq → String)
    (fs : FileSystem) (alg : String) (dirp : Path) :
    ∀ (l : List (Path × RawFileInfo)) (init : VerificationResults),
      (∀ e ∈ l, ∃ hsh, e.2.hash? = some hsh
        ∧ calculate_hash digest fs (dirp ++ e.1) alg = Except.ok hsh) →
      l.foldl (verifyEntry digest fs alg dirp) init
        = { init with passed := init.passed + l.length } := by
  intro l
  induction l with
  | nil => intro init _; rfl
  | cons e t ih =>
    intro init hl
    simp only [List.foldl_cons]
    obtain ⟨hsh, hhash, hok⟩ := hl e (List.mem_cons_self e t)
    have hex := calculate_hash_ok_pathExists digest fs (dirp ++ e.1) alg hsh hok
    have hstep : verifyEntry digest fs alg dirp init e
        = { init with passed := init.passed + 1 } := by
      unfold verifyEntry
      simp [hex, hok, hhash]
    rw [hstep, ih _ (fun x hx => hl x (List.mem_cons_of_mem e hx))]
    cases init
    simp only [List.length_cons]
    congr 1
    omega

/-- C1: round-trip — building a manifest over a tree and immediately
verifying that manifest against the same unmodified tree yields a
report with failed = 0, missing = 0, passed = total and the overall
verdict Intact (verify returns success). -/
theorem create_verify_roundTrip (digest : String → ByteSeq → String)
    (fs : FileSystem) (created_at : String) (dirp : Path) (out alg : String)
    (m : Manifest) (count : Nat)
    (hbuild : create_checksum_file digest fs created_at dirp out alg = some (m, count)) :
    ∃ res : VerificationResults,
      verify_integrity digest fs (ManifestFile.parsed m.toRaw) none = Except.ok (res, true)
      ∧ res.failed = 0 ∧ res.missing = 0 ∧ res.passed = res.total := by
  unfold create_checksum_file at hbuild
  by_cases hex : fs.pathExists dirp = true
  case neg => rw [if_neg hex] at hbuild; simp at hbuild
  rw [if_pos hex] at hbuild
  simp only [Option.some.injEq, Prod.mk.injEq] at hbuild
  obtain ⟨hm, hcount⟩ := hbuild
  have hwalk : ∀ x ∈ walkFiles fs dirp, isUnder dirp x.1 = true := by
    intro x hx
    unfold walkFiles at hx
    have h2 := (List.mem_filter.mp hx).2
    simpa using h2
  have hinv := buildStep_foldl_hash digest fs dirp out alg
    (walkFiles fs dirp) ([], 0) hwalk (by intro e he; simp at he)
  subst hm
  simp only [Manifest.toRaw]
  have hall : ∀ e ∈ ((walkFiles fs dirp).foldl
        (buildStep digest fs dirp out alg) ([], 0)).1.map
          (fun e => (e.1, ({ hash? := some e.2.hash } : RawFileInfo))),
      ∃ hsh, e.2.hash? = some hsh
        ∧ calculate_hash digest fs (dirp ++ e.1) alg = Except.ok hsh := by
    intro e he
    obtain ⟨x, hx, hxe⟩ := List.mem_map.mp he
    refine ⟨x.2.hash, ?_, ?_⟩
    · rw [← hxe]
    · rw [← hxe]
      exact hinv x hx
  unfold verify_integrity
  simp only [Option.getD]
  rw [verify_foldl_all_pass digest fs alg dirp _ _ hall]
  refine ⟨_, rfl, rfl, rfl, by simp⟩

/-- Witness for C1: build over the one-file tree fsW, then verify. -/
theorem create_verify_roundTrip_witness :
    ∃ res : VerificationResults,
      verify_integrity hashW fsW (ManifestFile.parsed mW.toRaw) none = Except.ok (res, true)
      ∧ res.failed = 0 ∧ res.missing = 0 ∧ res.passed = res.total :=
  create_verify_roundTrip hashW fsW "t" [ "d" ] "checksums.json" "sha256" mW 1 rfl

end T16
